import Mathlib

/-
Verification of the Socket.IO broadcast server (src/server.js) against its
natural-language specification.  The JavaScript source is shallowly embedded:
the mutable `userRateLimits` Map becomes an association list threaded through
the functions, `Date.now()` becomes an explicit `now : Nat` argument, socket
event handlers become pure functions from the relevant state to a result
record that carries the mutated state together with the events emitted to the
sender and to the other connections.
-/

namespace SocketServer

/-- A rate-limit window as stored in the `userRateLimits` Map:
`{ count, resetTime }` (src/server.js line 134). -/
structure RateWindow where
  count : Nat
  resetTime : Nat
deriving DecidableEq

/-- The `userRateLimits` Map, embedded as an association list from the string
key to its window.  `Map.get`/`Map.set` become `find`/`set` below. -/
abbrev RateMap := List (String × RateWindow)

/-- Lookup of a key in the map (JavaScript `userRateLimits.get(key)`,
with `has` being `isSome` of this). -/
def RateMap.find : RateMap → String → Option RateWindow
  | [], _ => none
  | (k, w) :: rest, key => if k = key then some w else RateMap.find rest key

/-- JavaScript `userRateLimits.set(key, w)` (also used for the in-place
mutations `limit.count = ...` / `limit.count++`): replace the binding of an
existing key, otherwise append a fresh binding. -/
def RateMap.set : RateMap → String → RateWindow → RateMap
  | [], key, w => [(key, w)]
  | (k, w') :: rest, key, w =>
      if k = key then (key, w) :: rest else (k, w') :: RateMap.set rest key w

/-- src/server.js line 120: max connections per minute per IP. -/
def CONNECTION_RATE_LIMIT : Nat := 5

/-- src/server.js line 121: max messages per minute per user. -/
def MESSAGE_RATE_LIMIT : Nat := 10

/-- The rate-limit key: the template literal `${userId}_${type}`
(src/server.js line 131). -/
def mkKey (userId ty : String) : String := userId ++ "_" ++ ty

/-- src/server.js line 146: `type === 'connection' ? CONNECTION_RATE_LIMIT :
MESSAGE_RATE_LIMIT`. -/
def limitFor (ty : String) : Nat :=
  if ty = "connection" then CONNECTION_RATE_LIMIT else MESSAGE_RATE_LIMIT

/-- `checkRateLimit(userId, type)` (src/server.js lines 129-154).  Returns the
boolean result together with the updated map. -/
def checkRateLimit (st : RateMap) (now : Nat) (userId ty : String) :
    Bool × RateMap :=
  let key := mkKey userId ty
  match st.find key with
  | none => (true, st.set key ⟨1, now + 60000⟩)
  | some limit =>
      if now > limit.resetTime then
        (true, st.set key ⟨1, now + 60000⟩)
      else if limit.count ≥ limitFor ty then
        (false, st)
      else
        (true, st.set key ⟨limit.count + 1, limit.resetTime⟩)

/-- A sequence of `checkRateLimit` calls for one key at the given times,
returning the list of results and the final map. -/
def runChecks (st : RateMap) (userId ty : String) : List Nat → List Bool × RateMap
  | [] => ([], st)
  | t :: ts =>
      let r := checkRateLimit st t userId ty
      let rest := runChecks r.2 userId ty ts
      (r.1 :: rest.1, rest.2)

theorem RateMap.find_set_self (m : RateMap) (k : String) (w : RateWindow) :
    (m.set k w).find k = some w := by
  induction m with
  | nil => simp [RateMap.set, RateMap.find]
  | cons hd tl ih =>
      obtain ⟨k', w'⟩ := hd
      by_cases h : k' = k
      · simp [RateMap.set, RateMap.find, h]
      · simp [RateMap.set, RateMap.find, h, ih]

theorem RateMap.find_set_ne (m : RateMap) (k k' : String) (w : RateWindow)
    (h : k ≠ k') : (m.set k w).find k' = m.find k' := by
  induction m with
  | nil => simp [RateMap.set, RateMap.find, h]
  | cons hd tl ih =>
      obtain ⟨k₀, w₀⟩ := hd
      by_cases h₀ : k₀ = k
      · subst h₀; simp [RateMap.set, RateMap.find, h]
      · simp [RateMap.set, RateMap.find, h₀, ih]

/-- Fresh key: the first call creates the window with count 1. -/
theorem checkRateLimit_fresh (st : RateMap) (now : Nat) (u ty : String)
    (h : st.find (mkKey u ty) = none) :
    checkRateLimit st now u ty = (true, st.set (mkKey u ty) ⟨1, now + 60000⟩) := by
  simp [checkRateLimit, h]

/-- Stale window: a call strictly after the reset time resets the window. -/
theorem checkRateLimit_reset (st : RateMap) (now : Nat) (u ty : String)
    (n r : Nat) (h : st.find (mkKey u ty) = some ⟨n, r⟩) (hr : now > r) :
    checkRateLimit st now u ty = (true, st.set (mkKey u ty) ⟨1, now + 60000⟩) := by
  simp [checkRateLimit, h, hr]

/-- In-window call below the limit: increments the count. -/
theorem checkRateLimit_incr (st : RateMap) (now : Nat) (u ty : String)
    (n r : Nat) (h : st.find (mkKey u ty) = some ⟨n, r⟩) (hr : ¬ now > r)
    (hn : n < limitFor ty) :
    checkRateLimit st now u ty = (true, st.set (mkKey u ty) ⟨n + 1, r⟩) := by
  simp [checkRateLimit, h, hr, Nat.not_le_of_lt hn]

/-- In-window call at or above the limit: rejected, map untouched. -/
theorem checkRateLimit_reject (st : RateMap) (now : Nat) (u ty : String)
    (n r : Nat) (h : st.find (mkKey u ty) = some ⟨n, r⟩) (hr : ¬ now > r)
    (hn : n ≥ limitFor ty) :
    checkRateLimit st now u ty = (false, st) := by
  simp [checkRateLimit, h, hr, hn]

/-- A run of calls all inside the current window and inside the budget:
all allowed, and the count advances by the number of calls. -/
theorem runChecks_all_allowed (u ty : String) (ts : List Nat) :
    ∀ (st : RateMap) (n r : Nat),
      st.find (mkKey u ty) = some ⟨n, r⟩ →
      (∀ t ∈ ts, t ≤ r) →
      n + ts.length ≤ limitFor ty →
      (runChecks st u ty ts).1 = List.replicate ts.length true ∧
      (runChecks st u ty ts).2.find (mkKey u ty) = some ⟨n + ts.length, r⟩ := by
  induction ts with
  | nil => intro st n r hfind _ _; simpa [runChecks] using hfind
  | cons t ts ih =>
      intro st n r hfind hts hbound
      have ht : ¬ t > r := by
        have := hts t (by simp)
        omega
      have hn : n < limitFor ty := by
        simp at hbound; omega
      have hstep := checkRateLimit_incr st t u ty n r hfind ht hn
      have hfind' : (st.set (mkKey u ty) ⟨n + 1, r⟩).find (mkKey u ty) =
          some ⟨n + 1, r⟩ := RateMap.find_set_self _ _ _
      have hts' : ∀ x ∈ ts, x ≤ r := fun x hx => hts x (by simp [hx])
      have hbound' : (n + 1) + ts.length ≤ limitFor ty := by
        simp at hbound ⊢; omega
      have := ih (st.set (mkKey u ty) ⟨n + 1, r⟩) (n + 1) r hfind' hts' hbound'
      refine ⟨?_, ?_⟩
      · simp only [runChecks, hstep]
        simp [this.1, List.replicate_succ]
      · simp only [runChecks, hstep]
        simpa [Nat.add_assoc, Nat.add_comm 1 ts.length] using this.2

/-- Splitting a run of checks at an append. -/
theorem runChecks_append (u ty : String) (l₁ l₂ : List Nat) :
    ∀ st : RateMap,
      runChecks st u ty (l₁ ++ l₂) =
        ((runChecks st u ty l₁).1 ++ (runChecks (runChecks st u ty l₁).2 u ty l₂).1,
         (runChecks (runChecks st u ty l₁).2 u ty l₂).2) := by
  induction l₁ with
  | nil => intro st; simp [runChecks]
  | cons t l₁ ih => intro st; simp [runChecks, ih]

/-- C1: for a fresh (key, category) pair with category "connection" (limit 5)
or "message" (limit 10), L calls inside one 60-second window all return true,
the (L+1)th returns false, and a later call made strictly after the window's
reset time returns true again with a fresh window of count 1 and reset time
now + 60s. -/
theorem checkRateLimit_fixed_window (u ty : String)
    (hty : ty = "connection" ∨ ty = "message")
    (st : RateMap) (hfresh : st.find (mkKey u ty) = none)
    (t0 : Nat) (ts : List Nat) (hlen : ts.length = limitFor ty - 1)
    (hts : ∀ t ∈ ts, t ≤ t0 + 60000)
    (tL : Nat) (htL : tL ≤ t0 + 60000)
    (t' : Nat) (ht' : t' > t0 + 60000) :
    (runChecks st u ty (t0 :: (ts ++ [tL]))).1 =
      List.replicate (limitFor ty) true ++ [false] ∧
    (checkRateLimit (runChecks st u ty (t0 :: (ts ++ [tL]))).2 t' u ty).1 = true ∧
    (checkRateLimit (runChecks st u ty (t0 :: (ts ++ [tL]))).2 t' u ty).2.find
      (mkKey u ty) = some ⟨1, t' + 60000⟩ := by
  have hL : 1 ≤ limitFor ty := by
    rcases hty with h | h <;> simp [h, limitFor, CONNECTION_RATE_LIMIT, MESSAGE_RATE_LIMIT]
  have hstep0 := checkRateLimit_fresh st t0 u ty hfresh
  set st1 := st.set (mkKey u ty) ⟨1, t0 + 60000⟩ with hst1
  have hfind1 : st1.find (mkKey u ty) = some ⟨1, t0 + 60000⟩ :=
    RateMap.find_set_self _ _ _
  have hrun := runChecks_all_allowed u ty ts st1 1 (t0 + 60000) hfind1 hts
    (by omega)
  set st2 := (runChecks st1 u ty ts).2 with hst2
  have hfind2 : st2.find (mkKey u ty) = some ⟨limitFor ty, t0 + 60000⟩ := by
    have := hrun.2
    rwa [show 1 + ts.length = limitFor ty by omega] at this
  have hrej := checkRateLimit_reject st2 tL u ty (limitFor ty) (t0 + 60000)
    hfind2 (by omega) (le_refl _)
  have hfull : runChecks st u ty (t0 :: (ts ++ [tL])) =
      (true :: ((runChecks st1 u ty ts).1 ++ [false]), st2) := by
    simp only [runChecks, hstep0]
    rw [runChecks_append]
    simp [← hst1, ← hst2, runChecks, hrej]
  refine ⟨?_, ?_, ?_⟩
  · rw [hfull]
    have hres := hrun.1
    simp only
    rw [hres, hlen]
    have : limitFor ty = (limitFor ty - 1) + 1 := by omega
    rw [this, List.replicate_succ]
    simp
  · rw [hfull]
    simp only
    rw [checkRateLimit_reset st2 t' u ty (limitFor ty) (t0 + 60000) hfind2 ht']
  · rw [hfull]
    simp only
    rw [checkRateLimit_reset st2 t' u ty (limitFor ty) (t0 + 60000) hfind2 ht']
    exact RateMap.find_set_self _ _ _

/-- Witness for C1 at a concrete input: category "message", fresh map, eleven
calls at time 0 and a later call at time 60001. -/
theorem checkRateLimit_fixed_window_witness :
    (runChecks [] "u" "message" (0 :: (List.replicate 9 0 ++ [0]))).1 =
      List.replicate (limitFor "message") true ++ [false] ∧
    (checkRateLimit (runChecks [] "u" "message"
        (0 :: (List.replicate 9 0 ++ [0]))).2 60001 "u" "message").1 = true ∧
    (checkRateLimit (runChecks [] "u" "message"
        (0 :: (List.replicate 9 0 ++ [0]))).2 60001 "u" "message").2.find
      (mkKey "u" "message") = some ⟨1, 60001 + 60000⟩ :=
  checkRateLimit_fixed_window "u" "message" (Or.inr rfl) [] rfl 0
    (List.replicate 9 0) (by decide) (by decide) 0 (by decide) 60001 (by decide)

/-- C2: a `checkRateLimit` call that returns false leaves the stored map
(count and reset time of every window) unchanged. -/
theorem checkRateLimit_false_preserves_state (st : RateMap) (now : Nat)
    (u ty : String) (h : (checkRateLimit st now u ty).1 = false) :
    (checkRateLimit st now u ty).2 = st := by
  cases hf : st.find (mkKey u ty) with
  | none => simp [checkRateLimit, hf] at h
  | some limit =>
      by_cases h1 : now > limit.resetTime
      · simp [checkRateLimit, hf, h1] at h
      · by_cases h2 : limit.count ≥ limitFor ty
        · simp [checkRateLimit, hf, h1, h2]
        · simp [checkRateLimit, hf, h1, h2] at h

/-- Witness for C2: a saturated "message" window at count 10 rejects the call
at time 50 and the map is returned unchanged. -/
theorem checkRateLimit_false_preserves_state_witness :
    (checkRateLimit [("u_message", ⟨10, 100⟩)] 50 "u" "message").1 = false ∧
    (checkRateLimit [("u_message", ⟨10, 100⟩)] 50 "u" "message").2 =
      [("u_message", ⟨10, 100⟩)] :=
  ⟨by decide, checkRateLimit_false_preserves_state _ 50 "u" "message" (by decide)⟩

/-- Outbound socket events (src/server.js: the payloads emitted by
`socket.emit` / `socket.broadcast.emit` / `io.emit`), with the fields the
handlers fill in.  `errorMsg` is the generic `error {message}` event. -/
inductive OutEvent where
  | welcome (redis_enabled : Bool) (connection_time : Nat)
  | errorMsg (message : String)
  | authenticated (username : String) (time : Nat)
  | auth_error (message : String)
  | claim_received (code : String) (user : String) (time : Nat) (auto_claim : Bool)
  | code_claimed (code : String) (claimed_by : String) (time : Nat)
  | recent_codes (codes : List String) (count : Nat)
  | bonus_code (code : String) (broadcast_time : Nat)
deriving DecidableEq

/-- The `connectionStats` object (src/server.js lines 111-117).  Counters are
JavaScript numbers updated by signed deltas, so they are embedded as `Int`. -/
structure ConnectionStats where
  total_connections : Int
  active_connections : Int
  codes_broadcasted : Int
  messages_sent : Int
  start_time : Int
deriving DecidableEq

/-- `updateStats(metric, delta = 1)` (src/server.js lines 123-127): adds the
delta to a known metric and ignores unknown metric names. -/
def updateStats (s : ConnectionStats) (metric : String) (delta : Int) :
    ConnectionStats :=
  if metric = "total_connections" then
    { s with total_connections := s.total_connections + delta }
  else if metric = "active_connections" then
    { s with active_connections := s.active_connections + delta }
  else if metric = "codes_broadcasted" then
    { s with codes_broadcasted := s.codes_broadcasted + delta }
  else if metric = "messages_sent" then
    { s with messages_sent := s.messages_sent + delta }
  else if metric = "start_time" then
    { s with start_time := s.start_time + delta }
  else s

/-- Per-socket state: the transport id, the connection-scoped rate-limit key
`userId = socket.handshake.query.userId || socket.id` (src/server.js line 159),
the mutable `socket.userId` set on authentication (absent until then), the
`socket.authenticated` flag, and the rooms joined via `socket.join`. -/
structure SocketState where
  id : String
  handshakeUserId : String
  userId : Option String
  authenticated : Bool
  rooms : List String
deriving DecidableEq

/-- JavaScript `socket.handshake.query.userId || socket.id`: the query value
when present and truthy (non-empty), otherwise the socket id. -/
def resolveUserId (queryUserId : Option String) (sockId : String) : String :=
  match queryUserId with
  | some u => if u = "" then sockId else u
  | none => sockId

/-- A freshly connected socket: no identity, not authenticated, no rooms. -/
def mkSocket (sockId : String) (queryUserId : Option String) : SocketState :=
  ⟨sockId, resolveUserId queryUserId sockId, none, false, []⟩

/-- String coercion of a possibly-undefined JavaScript value, as it occurs in
the template literal that builds the rate-limit key. -/
def optStr : Option String → String
  | some s => s
  | none => "undefined"

/-- `socket.join(room)`: rooms form a set, so joining is insert-if-absent. -/
def joinRoom (rooms : List String) (room : String) : List String :=
  if room ∈ rooms then rooms else rooms ++ [room]

/-- `sendRecentCodes` (src/server.js lines 274-288): read the first ten
entries of the `recent_codes` list (`lRange('recent_codes', 0, 9)`), and only
when that slice is non-empty emit one `recent_codes {codes, count}` event. -/
def sendRecentCodes (store : List String) : List OutEvent :=
  let recentCodes := store.take 10
  if recentCodes.length > 0 then
    [.recent_codes recentCodes recentCodes.length]
  else
    []

/-- Result of the `authenticate` handler: the updated socket and rate map and
the events emitted to the requesting socket, in emission order. -/
structure AuthResult where
  socket : SocketState
  rateLimits : RateMap
  events : List OutEvent
deriving DecidableEq

/-- The `authenticate` handler (src/server.js lines 196-225).  The rate check
is keyed by the connection-scoped `userId` captured at line 159, not by the
submitted username; `username && username.length >= 3` is the validity test;
on success the socket stores the username, sets the authenticated flag, joins
the room `user_<username>`, emits `authenticated` and, when the Redis adapter
is connected, replays the recent codes. -/
def handleAuthenticate (sock : SocketState) (rl : RateMap)
    (redisConnected : Bool) (store : List String) (now : Nat)
    (username : Option String) : AuthResult :=
  let chk := checkRateLimit rl now sock.handshakeUserId "message"
  if !chk.1 then
    ⟨sock, chk.2, [.errorMsg "Message rate limit exceeded"]⟩
  else
    match username with
    | some u =>
        if u.length ≥ 3 then
          ⟨{ sock with
               userId := some u,
               authenticated := true,
               rooms := joinRoom sock.rooms ("user_" ++ u) },
           chk.2,
           [.authenticated u now] ++
             (if redisConnected then sendRecentCodes store else [])⟩
        else
          ⟨sock, chk.2, [.auth_error "Invalid username"]⟩
    | none => ⟨sock, chk.2, [.auth_error "Invalid username"]⟩

/-- Result of the `claim_code` handler: state plus the events emitted to the
sender and the events broadcast to every other connection. -/
structure ClaimResult where
  socket : SocketState
  rateLimits : RateMap
  stats : ConnectionStats
  toSender : List OutEvent
  toOthers : List OutEvent
deriving DecidableEq

/-- The `claim_code` handler (src/server.js lines 228-259): reject when not
authenticated, then when the "message" rate check keyed by `socket.userId`
fails; otherwise acknowledge to the sender with `claim_received`, broadcast
`code_claimed` to all other connections, and increment `messages_sent`. -/
def handleClaimCode (sock : SocketState) (rl : RateMap)
    (stats : ConnectionStats) (now : Nat) (code : String)
    (auto_claim : Bool) : ClaimResult :=
  if !sock.authenticated then
    ⟨sock, rl, stats, [.errorMsg "Authentication required"], []⟩
  else
    let chk := checkRateLimit rl now (optStr sock.userId) "message"
    if !chk.1 then
      ⟨sock, chk.2, stats, [.errorMsg "Rate limit exceeded - slow down!"], []⟩
    else
      ⟨sock, chk.2, updateStats stats "messages_sent" 1,
       [.claim_received code (optStr sock.userId) now auto_claim],
       [.code_claimed code (optStr sock.userId) now]⟩

/-- `socket.broadcast.emit`: deliver one event to every registered connection
except the sender. -/
def broadcastEmit (registered : List String) (senderId : String)
    (ev : OutEvent) : List (String × OutEvent) :=
  (registered.filter (fun i => i ≠ senderId)).map (fun i => (i, ev))

/-- `io.emit`: deliver one event to every registered connection. -/
def ioEmit (registered : List String) (ev : OutEvent) :
    List (String × OutEvent) :=
  registered.map (fun i => (i, ev))

/-- C3: room membership implies authentication.  An unauthenticated
`claim_code` always yields the authentication-required `error` event, never a
`claim_received`, and changes nothing; a fresh socket has no rooms and is not
authenticated; the `authenticate` handler preserves the invariant that a
socket with a room is authenticated; and `claim_code` never alters the
socket. -/
theorem rooms_require_authentication :
    (∀ (sock : SocketState) (rl : RateMap) (stats : ConnectionStats)
       (now : Nat) (code : String) (auto : Bool),
       sock.authenticated = false →
       handleClaimCode sock rl stats now code auto =
         ⟨sock, rl, stats, [.errorMsg "Authentication required"], []⟩) ∧
    (∀ (sid : String) (q : Option String),
       (mkSocket sid q).rooms = [] ∧ (mkSocket sid q).authenticated = false) ∧
    (∀ (sock : SocketState) (rl : RateMap) (rc : Bool) (store : List String)
       (now : Nat) (un : Option String),
       (sock.rooms ≠ [] → sock.authenticated = true) →
       ((handleAuthenticate sock rl rc store now un).socket.rooms ≠ [] →
        (handleAuthenticate sock rl rc store now un).socket.authenticated = true)) ∧
    (∀ (sock : SocketState) (rl : RateMap) (stats : ConnectionStats)
       (now : Nat) (code : String) (auto : Bool),
       (handleClaimCode sock rl stats now code auto).socket = sock) := by
  refine ⟨?_, ?_, ?_, ?_⟩
  · intro sock rl stats now code auto h
    simp [handleClaimCode, h]
  · intro sid q
    exact ⟨rfl, rfl⟩
  · intro sock rl rc store now un hinv
    cases hc : (checkRateLimit rl now sock.handshakeUserId "message").1 with
    | false => simpa [handleAuthenticate, hc] using hinv
    | true =>
        cases un with
        | none => simpa [handleAuthenticate, hc] using hinv
        | some u =>
            by_cases hl : u.length ≥ 3
            · simp [handleAuthenticate, hc, hl]
            · simpa [handleAuthenticate, hc, hl] using hinv
  · intro sock rl stats now code auto
    cases h : sock.authenticated with
    | false => simp [handleClaimCode, h]
    | true =>
        cases hc : (checkRateLimit rl now (optStr sock.userId) "message").1 with
        | false => simp [handleClaimCode, h, hc]
        | true => simp [handleClaimCode, h, hc]

/-- Witness for C3 at concrete inputs: an unauthenticated fresh socket whose
`claim_code` is rejected with the error event and left unchanged. -/
theorem rooms_require_authentication_witness :
    handleClaimCode (mkSocket "s1" none) [] ⟨0, 0, 0, 0, 0⟩ 0 "X1" false =
      ⟨mkSocket "s1" none, [], ⟨0, 0, 0, 0, 0⟩,
       [.errorMsg "Authentication required"], []⟩ ∧
    ((mkSocket "s1" none).rooms = [] ∧
     (mkSocket "s1" none).authenticated = false) ∧
    ((handleAuthenticate (mkSocket "s1" none) [] false [] 0
        (some "ab")).socket.rooms ≠ [] →
     (handleAuthenticate (mkSocket "s1" none) [] false [] 0
        (some "ab")).socket.authenticated = true) ∧
    (handleClaimCode (mkSocket "s1" none) [] ⟨0, 0, 0, 0, 0⟩ 0 "X1"
        false).socket = mkSocket "s1" none :=
  ⟨rooms_require_authentication.1 (mkSocket "s1" none) [] ⟨0, 0, 0, 0, 0⟩
      0 "X1" false (by decide),
   rooms_require_authentication.2.1 "s1" none,
   rooms_require_authentication.2.2.1 (mkSocket "s1" none) [] false [] 0
      (some "ab") (by decide),
   rooms_require_authentication.2.2.2 (mkSocket "s1" none) [] ⟨0, 0, 0, 0, 0⟩
      0 "X1" false⟩

/-- C4: an authenticated `claim_code` whose message-category rate check
passes acknowledges the sender with `claim_received {code, user}`, broadcasts
`code_claimed {code, claimed_by}` to every other registered connection, and
increments `messages_sent` by exactly one. -/
theorem claim_code_success_broadcast (sock : SocketState) (rl : RateMap)
    (stats : ConnectionStats) (now : Nat) (code : String) (auto : Bool)
    (hauth : sock.authenticated = true)
    (hchk : (checkRateLimit rl now (optStr sock.userId) "message").1 = true) :
    (handleClaimCode sock rl stats now code auto).toSender =
      [.claim_received code (optStr sock.userId) now auto] ∧
    (handleClaimCode sock rl stats now code auto).toOthers =
      [.code_claimed code (optStr sock.userId) now] ∧
    (handleClaimCode sock rl stats now code auto).stats.messages_sent =
      stats.messages_sent + 1 ∧
    (∀ (registered : List String) (sid : String),
       sid ∈ registered → sid ≠ sock.id →
       (sid, OutEvent.code_claimed code (optStr sock.userId) now) ∈
         broadcastEmit registered sock.id
           (OutEvent.code_claimed code (optStr sock.userId) now)) := by
  refine ⟨?_, ?_, ?_, ?_⟩
  · simp [handleClaimCode, hauth, hchk]
  · simp [handleClaimCode, hauth, hchk]
  · simp [handleClaimCode, hauth, hchk, updateStats]
  · intro registered sid hmem hne
    simp only [broadcastEmit]
    exact List.mem_map.2 ⟨sid, List.mem_filter.2 ⟨hmem, by simp [hne]⟩, rfl⟩

/-- Witness for C4: a concrete authenticated socket claims "X1"; the second
registered connection "s2" receives the `code_claimed` broadcast. -/
theorem claim_code_success_broadcast_witness :
    (handleClaimCode ⟨"s1", "u1", some "alice", true, ["user_alice"]⟩ []
        ⟨0, 0, 0, 0, 0⟩ 5 "X1" false).toSender =
      [.claim_received "X1" (optStr (some "alice")) 5 false] ∧
    (handleClaimCode ⟨"s1", "u1", some "alice", true, ["user_alice"]⟩ []
        ⟨0, 0, 0, 0, 0⟩ 5 "X1" false).toOthers =
      [.code_claimed "X1" (optStr (some "alice")) 5] ∧
    (handleClaimCode ⟨"s1", "u1", some "alice", true, ["user_alice"]⟩ []
        ⟨0, 0, 0, 0, 0⟩ 5 "X1" false).stats.messages_sent = 0 + 1 ∧
    ("s2", OutEvent.code_claimed "X1" (optStr (some "alice")) 5) ∈
      broadcastEmit ["s1", "s2"] "s1"
        (OutEvent.code_claimed "X1" (optStr (some "alice")) 5) := by
  have h := claim_code_success_broadcast
    ⟨"s1", "u1", some "alice", true, ["user_alice"]⟩ [] ⟨0, 0, 0, 0, 0⟩
    5 "X1" false rfl (by decide)
  exact ⟨h.1, h.2.1, h.2.2.1, h.2.2.2 ["s1", "s2"] "s2" (by decide) (by decide)⟩

/-- C6: a second `authenticate` with a too-short username (length < 3) on an
already-authenticated session emits `auth_error` and leaves the socket (its
identity, flag, and rooms) exactly as it was. -/
theorem authenticate_invalid_preserves_session (sock : SocketState)
    (rl : RateMap) (rc : Bool) (store : List String) (now : Nat) (un : String)
    (_hauth : sock.authenticated = true) (_hid : sock.userId = some "alice")
    (hun : un.length < 3)
    (hchk : (checkRateLimit rl now sock.handshakeUserId "message").1 = true) :
    (handleAuthenticate sock rl rc store now (some un)).events =
      [.auth_error "Invalid username"] ∧
    (handleAuthenticate sock rl rc store now (some un)).socket = sock := by
  have hl : ¬ un.length ≥ 3 := by omega
  constructor <;> simp [handleAuthenticate, hchk, hl]

/-- Witness for C6: a session authenticated as alice receives `auth_error` on
re-authenticating as "ab" and keeps its state. -/
theorem authenticate_invalid_preserves_session_witness :
    (handleAuthenticate ⟨"s1", "u1", some "alice", true, ["user_alice"]⟩ []
        true [] 7 (some "ab")).events = [.auth_error "Invalid username"] ∧
    (handleAuthenticate ⟨"s1", "u1", some "alice", true, ["user_alice"]⟩ []
        true [] 7 (some "ab")).socket =
      ⟨"s1", "u1", some "alice", true, ["user_alice"]⟩ :=
  authenticate_invalid_preserves_session
    ⟨"s1", "u1", some "alice", true, ["user_alice"]⟩ [] true [] 7 "ab"
    rfl rfl (by decide) (by decide)

/-- C10: the `authenticate` handler's rate check is keyed by the
handshake-supplied userId (the socket id when the query value is absent), and
it runs before identity validation: when it fails the generic rate-limit
`error` is emitted whatever the username, and an authenticate rejected for a
too-short username still consumed one unit of that pre-authentication key's
message budget. -/
theorem authenticate_rate_key_is_handshake :
    (∀ sid : String, (mkSocket sid none).handshakeUserId = sid) ∧
    (∀ sid u : String, u ≠ "" →
       (mkSocket sid (some u)).handshakeUserId = u) ∧
    (∀ (sock : SocketState) (rl : RateMap) (rc : Bool) (store : List String)
       (now : Nat) (un : Option String),
       (checkRateLimit rl now sock.handshakeUserId "message").1 = false →
       (handleAuthenticate sock rl rc store now un).events =
         [.errorMsg "Message rate limit exceeded"]) ∧
    (∀ (sock : SocketState) (rl : RateMap) (rc : Bool) (store : List String)
       (now : Nat) (un : String) (n r : Nat),
       rl.find (mkKey sock.handshakeUserId "message") = some ⟨n, r⟩ →
       ¬ now > r → n < limitFor "message" → un.length < 3 →
       (handleAuthenticate sock rl rc store now (some un)).events =
         [.auth_error "Invalid username"] ∧
       (handleAuthenticate sock rl rc store now
           (some un)).rateLimits.find (mkKey sock.handshakeUserId "message") =
         some ⟨n + 1, r⟩) := by
  refine ⟨fun sid => rfl, ?_, ?_, ?_⟩
  · intro sid u hu
    simp [mkSocket, resolveUserId, hu]
  · intro sock rl rc store now un hc
    simp [handleAuthenticate, hc]
  · intro sock rl rc store now un n r hfind hnow hn hun
    have hstep := checkRateLimit_incr rl now sock.handshakeUserId "message"
      n r hfind hnow hn
    have hl : ¬ un.length ≥ 3 := by omega
    refine ⟨?_, ?_⟩
    · simp [handleAuthenticate, hstep, hl]
    · simp [handleAuthenticate, hstep, hl]
      exact RateMap.find_set_self _ _ _

/-- Witness for C10: with query userId "u1" on socket "s1", a saturated
window rejects even a valid username, and an invalid username consumes one
unit of the "u1_message" budget. -/
theorem authenticate_rate_key_is_handshake_witness :
    (mkSocket "s1" none).handshakeUserId = "s1" ∧
    (mkSocket "s1" (some "u1")).handshakeUserId = "u1" ∧
    (handleAuthenticate ⟨"s1", "u1", none, false, []⟩
        [("u1_message", ⟨10, 100⟩)] false [] 50 (some "alice")).events =
      [.errorMsg "Message rate limit exceeded"] ∧
    (handleAuthenticate ⟨"s1", "u1", none, false, []⟩
        [("u1_message", ⟨3, 100⟩)] false [] 50 (some "ab")).events =
      [.auth_error "Invalid username"] ∧
    (handleAuthenticate ⟨"s1", "u1", none, false, []⟩
        [("u1_message", ⟨3, 100⟩)] false [] 50
        (some "ab")).rateLimits.find (mkKey "u1" "message") =
      some ⟨3 + 1, 100⟩ := by
  have h4 := authenticate_rate_key_is_handshake.2.2.2
    ⟨"s1", "u1", none, false, []⟩ [("u1_message", ⟨3, 100⟩)] false [] 50
    "ab" 3 100 (by decide) (by decide) (by decide) (by decide)
  exact ⟨authenticate_rate_key_is_handshake.1 "s1",
    authenticate_rate_key_is_handshake.2.1 "s1" "u1" (by decide),
    authenticate_rate_key_is_handshake.2.2.1 ⟨"s1", "u1", none, false, []⟩
      [("u1_message", ⟨10, 100⟩)] false [] 50 (some "alice") (by decide),
    h4.1, h4.2⟩

/-- Accumulated outcome of a sequence of `claim_code` deliveries on one
socket: the per-call events emitted to the sender, plus the final socket,
rate map, and stats. -/
structure RunClaims where
  sent : List (List OutEvent)
  socket : SocketState
  rateLimits : RateMap
  stats : ConnectionStats
deriving DecidableEq

/-- Deliver a list of timed `claim_code {code}` events (default
`auto_claim = false`) to one socket, threading the state. -/
def runClaims (sock : SocketState) (rl : RateMap) (stats : ConnectionStats) :
    List (Nat × String) → RunClaims
  | [] => ⟨[], sock, rl, stats⟩
  | (t, c) :: rest =>
      let r := handleClaimCode sock rl stats t c false
      let rest' := runClaims r.socket r.rateLimits r.stats rest
      ⟨r.toSender :: rest'.sent, rest'.socket, rest'.rateLimits, rest'.stats⟩

/-- A successful `claim_code` step, written as one equation. -/
theorem handleClaimCode_success_step (sock : SocketState) (rl : RateMap)
    (stats : ConnectionStats) (now : Nat) (code : String) (auto : Bool)
    (hauth : sock.authenticated = true) (n r : Nat)
    (hfind : rl.find (mkKey (optStr sock.userId) "message") = some ⟨n, r⟩)
    (hnow : ¬ now > r) (hn : n < limitFor "message") :
    handleClaimCode sock rl stats now code auto =
      ⟨sock, rl.set (mkKey (optStr sock.userId) "message") ⟨n + 1, r⟩,
       updateStats stats "messages_sent" 1,
       [.claim_received code (optStr sock.userId) now auto],
       [.code_claimed code (optStr sock.userId) now]⟩ := by
  have hstep := checkRateLimit_incr rl now (optStr sock.userId) "message"
    n r hfind hnow hn
  simp [handleClaimCode, hauth, hstep]

/-- A rejected (rate-limited) `claim_code` step, written as one equation. -/
theorem handleClaimCode_reject_step (sock : SocketState) (rl : RateMap)
    (stats : ConnectionStats) (now : Nat) (code : String) (auto : Bool)
    (hauth : sock.authenticated = true) (n r : Nat)
    (hfind : rl.find (mkKey (optStr sock.userId) "message") = some ⟨n, r⟩)
    (hnow : ¬ now > r) (hn : n ≥ limitFor "message") :
    handleClaimCode sock rl stats now code auto =
      ⟨sock, rl, stats, [.errorMsg "Rate limit exceeded - slow down!"], []⟩ := by
  have hstep := checkRateLimit_reject rl now (optStr sock.userId) "message"
    n r hfind hnow hn
  simp [handleClaimCode, hauth, hstep]

/-- A run of `claim_code` events all inside the current window and inside the
budget: every one is acknowledged with `claim_received`, the socket is
untouched, and the stored count advances by the number of events. -/
theorem runClaims_all_received (sock : SocketState) (hauth : sock.authenticated = true)
    (evs : List (Nat × String)) :
    ∀ (rl : RateMap) (stats : ConnectionStats) (n r : Nat),
      rl.find (mkKey (optStr sock.userId) "message") = some ⟨n, r⟩ →
      (∀ p ∈ evs, p.1 ≤ r) →
      n + evs.length ≤ limitFor "message" →
      (runClaims sock rl stats evs).sent =
        evs.map (fun p => [.claim_received p.2 (optStr sock.userId) p.1 false]) ∧
      (runClaims sock rl stats evs).socket = sock ∧
      (runClaims sock rl stats evs).rateLimits.find
        (mkKey (optStr sock.userId) "message") = some ⟨n + evs.length, r⟩ := by
  induction evs with
  | nil =>
      intro rl stats n r hfind _ _
      exact ⟨rfl, rfl, by simpa [runClaims] using hfind⟩
  | cons p evs ih =>
      obtain ⟨t, c⟩ := p
      intro rl stats n r hfind hts hbound
      have ht : ¬ t > r := by
        have := hts (t, c) (by simp)
        simp at this; omega
      have hn : n < limitFor "message" := by
        simp at hbound; omega
      have hstep := handleClaimCode_success_step sock rl stats t c false
        hauth n r hfind ht hn
      have hfind' :
          (rl.set (mkKey (optStr sock.userId) "message") ⟨n + 1, r⟩).find
            (mkKey (optStr sock.userId) "message") = some ⟨n + 1, r⟩ :=
        RateMap.find_set_self _ _ _
      have hts' : ∀ q ∈ evs, q.1 ≤ r := fun q hq => hts q (by simp [hq])
      have hbound' : (n + 1) + evs.length ≤ limitFor "message" := by
        simp at hbound ⊢; omega
      have := ih (rl.set (mkKey (optStr sock.userId) "message") ⟨n + 1, r⟩)
        (updateStats stats "messages_sent" 1) (n + 1) r hfind' hts' hbound'
      refine ⟨?_, ?_, ?_⟩
      · simp only [runClaims, hstep]
        simp [this.1]
      · simp only [runClaims, hstep]
        exact this.2.1
      · simp only [runClaims, hstep]
        have h2 := this.2.2
        rwa [show n + 1 + evs.length = n + (evs.length + 1) by omega] at h2

/-- C5: eleven `claim_code` events from the same authenticated identity whose
times all lie inside the 60-second window opened by the first event: the
first ten are each acknowledged with `claim_received`, the eleventh gets the
rate-limit `error` event instead. -/
theorem claim_code_eleventh_rejected (sock : SocketState) (rl : RateMap)
    (stats : ConnectionStats) (hauth : sock.authenticated = true)
    (hfresh : rl.find (mkKey (optStr sock.userId) "message") = none)
    (t0 : Nat) (c0 : String) (mid : List (Nat × String))
    (hmid : mid.length = 9) (hts : ∀ p ∈ mid, p.1 ≤ t0 + 60000)
    (t10 : Nat) (c10 : String) (ht10 : t10 ≤ t0 + 60000) :
    (runClaims sock rl stats ((t0, c0) :: (mid ++ [(t10, c10)]))).sent =
      ((t0, c0) :: mid).map
        (fun p => [.claim_received p.2 (optStr sock.userId) p.1 false]) ++
      [[.errorMsg "Rate limit exceeded - slow down!"]] := by
  have hchk := checkRateLimit_fresh rl t0 (optStr sock.userId) "message" hfresh
  have hstep0 : handleClaimCode sock rl stats t0 c0 false =
      ⟨sock, rl.set (mkKey (optStr sock.userId) "message") ⟨1, t0 + 60000⟩,
       updateStats stats "messages_sent" 1,
       [.claim_received c0 (optStr sock.userId) t0 false],
       [.code_claimed c0 (optStr sock.userId) t0]⟩ := by
    simp [handleClaimCode, hauth, hchk]
  set rl1 := rl.set (mkKey (optStr sock.userId) "message") ⟨1, t0 + 60000⟩
    with hrl1
  have hfind1 : rl1.find (mkKey (optStr sock.userId) "message") =
      some ⟨1, t0 + 60000⟩ := RateMap.find_set_self _ _ _
  have hrunmid := runClaims_all_received sock hauth mid rl1
    (updateStats stats "messages_sent" 1) 1 (t0 + 60000) hfind1 hts
    (by simp [hmid, limitFor, MESSAGE_RATE_LIMIT])
  -- split the run at the append: first the nine middle events, then the last
  have happ : ∀ (l₁ l₂ : List (Nat × String)) (s : SocketState) (m : RateMap)
      (st : ConnectionStats),
      runClaims s m st (l₁ ++ l₂) =
        ⟨(runClaims s m st l₁).sent ++
           (runClaims (runClaims s m st l₁).socket
             (runClaims s m st l₁).rateLimits (runClaims s m st l₁).stats l₂).sent,
         (runClaims (runClaims s m st l₁).socket
           (runClaims s m st l₁).rateLimits (runClaims s m st l₁).stats l₂).socket,
         (runClaims (runClaims s m st l₁).socket
           (runClaims s m st l₁).rateLimits (runClaims s m st l₁).stats l₂).rateLimits,
         (runClaims (runClaims s m st l₁).socket
           (runClaims s m st l₁).rateLimits (runClaims s m st l₁).stats l₂).stats⟩ := by
    intro l₁
    induction l₁ with
    | nil => intro l₂ s m st; simp [runClaims]
    | cons q l₁ ih =>
        intro l₂ s m st
        obtain ⟨tq, cq⟩ := q
        rw [List.cons_append]
        simp only [runClaims]
        rw [ih]
        simp
  have hmidsock := hrunmid.2.1
  have hmidfind : (runClaims sock rl1 (updateStats stats "messages_sent" 1)
      mid).rateLimits.find (mkKey (optStr sock.userId) "message") =
      some ⟨10, t0 + 60000⟩ := by
    have := hrunmid.2.2
    rwa [hmid] at this
  have hlast : handleClaimCode
      (runClaims sock rl1 (updateStats stats "messages_sent" 1) mid).socket
      (runClaims sock rl1 (updateStats stats "messages_sent" 1) mid).rateLimits
      (runClaims sock rl1 (updateStats stats "messages_sent" 1) mid).stats
      t10 c10 false =
      ⟨(runClaims sock rl1 (updateStats stats "messages_sent" 1) mid).socket,
       (runClaims sock rl1 (updateStats stats "messages_sent" 1) mid).rateLimits,
       (runClaims sock rl1 (updateStats stats "messages_sent" 1) mid).stats,
       [.errorMsg "Rate limit exceeded - slow down!"], []⟩ := by
    rw [hmidsock]
    exact handleClaimCode_reject_step sock _ _ t10 c10 false hauth 10
      (t0 + 60000) (by rw [← hmidsock] at hmidfind; rwa [hmidsock] at hmidfind)
      (by omega) (by simp [limitFor, MESSAGE_RATE_LIMIT])
  simp only [runClaims, hstep0]
  rw [happ]
  rw [hmidsock] at hlast
  simp only [runClaims, ← hrl1]
  rw [hmidsock]
  simp only [hlast, runClaims]
  simp [hrunmid.1]

/-- Witness for C5: eleven concrete claims at time 0 from alice on a fresh
map: ten `claim_received` acknowledgments then the rate-limit error. -/
theorem claim_code_eleventh_rejected_witness :
    (runClaims ⟨"s1", "u1", some "alice", true, ["user_alice"]⟩ []
        ⟨0, 0, 0, 0, 0⟩
        ((0, "c0") :: (List.replicate 9 (0, "c") ++ [(0, "c10")]))).sent =
      ((0, "c0") :: List.replicate 9 (0, "c")).map
        (fun p => [.claim_received p.2 (optStr (some "alice")) p.1 false]) ++
      [[.errorMsg "Rate limit exceeded - slow down!"]] :=
  claim_code_eleventh_rejected ⟨"s1", "u1", some "alice", true, ["user_alice"]⟩
    [] ⟨0, 0, 0, 0, 0⟩ rfl rfl 0 "c0" (List.replicate 9 (0, "c"))
    (by decide) (by decide) 0 "c10" (by decide)

/-- Outcome of connecting the two Redis clients at startup. -/
inductive BusOutcome where
  | ok
  | connectFail
deriving DecidableEq

/-- The try block of `setupRedisAdapter` (src/server.js lines 74-103):
connecting the pub and sub clients either succeeds or raises. -/
def tryConnectBus : BusOutcome → Except String Unit
  | .ok => .ok ()
  | .connectFail => .error "Redis adapter setup failed"

/-- `setupRedisAdapter` (src/server.js lines 73-108): on success the adapter
is installed and `redisConnected` becomes true; the catch block only logs
("Running in single-instance mode"), so the function always returns normally
with the resulting `redisConnected` flag. -/
def setupRedisAdapter (b : BusOutcome) : Bool :=
  match tryConnectBus b with
  | .ok () => true
  | .error _ => false

/-- `startServer` (src/server.js lines 317-352): `setupRedisAdapter` cannot
raise, so startup proceeds to `server.listen` whatever the bus outcome.  The
carried value is the `redisConnected` flag; `.error` would be the
`process.exit(1)` path. -/
def startServer (b : BusOutcome) : Except String Bool :=
  .ok (setupRedisAdapter b)

/-- The body of the `/health` endpoint (src/server.js lines 291-299),
restricted to the fields the spec names. -/
structure HealthBody where
  status : String
  redis_connected : Bool
deriving DecidableEq

/-- `GET /health` response. -/
def healthBody (redisConnected : Bool) : HealthBody :=
  ⟨"healthy", redisConnected⟩

/-- `sendRecentCodes` with the bus state explicit: the Redis read sits inside
try/catch (src/server.js lines 275-287), so with the bus down it emits
nothing and no exception reaches the caller. -/
def sendRecentCodesTry (busOk : Bool) (store : List String) : List OutEvent :=
  if busOk then sendRecentCodes store else []

/-- C7: a bus connection failure at startup is not fatal: `startServer`
still returns normally and the server runs with `redisConnected = false`;
the health endpoint reports `redis_connected: false` (while still answering
"healthy"); a local `io.emit` broadcast reaches every registered connection
(delivery does not involve the bus); and the one bus read in the handlers is
caught, yielding no events rather than an exception. -/
theorem bus_failure_degrades_gracefully :
    startServer .connectFail = .ok false ∧
    (healthBody (setupRedisAdapter .connectFail)).redis_connected = false ∧
    (healthBody (setupRedisAdapter .connectFail)).status = "healthy" ∧
    (∀ (registered : List String) (ev : OutEvent) (sid : String),
       sid ∈ registered → (sid, ev) ∈ ioEmit registered ev) ∧
    (∀ store : List String, sendRecentCodesTry false store = []) := by
  refine ⟨rfl, rfl, rfl, ?_, fun store => rfl⟩
  intro registered ev sid hmem
  exact List.mem_map.2 ⟨sid, hmem, rfl⟩

/-- Witness for C7: the broadcast-delivery conjunct at a concrete registry. -/
theorem bus_failure_degrades_gracefully_witness :
    startServer .connectFail = .ok false ∧
    ("s2", OutEvent.bonus_code "X1" 3) ∈
      ioEmit ["s1", "s2"] (OutEvent.bonus_code "X1" 3) ∧
    sendRecentCodesTry false ["c1"] = [] :=
  ⟨bus_failure_degrades_gracefully.1,
   bus_failure_degrades_gracefully.2.2.2.1 ["s1", "s2"]
     (OutEvent.bonus_code "X1" 3) "s2" (by decide),
   bus_failure_degrades_gracefully.2.2.2.2 ["c1"]⟩

/-- Modelled from the spec: the producer side of the `recent_codes` store
(the external backend that appends each broadcast event) is not part of
src/.  Following §4.4, `append` keeps at most N = 10 events, evicting the
oldest beyond capacity, stored oldest first. -/
def cacheAppend (cache : List String) (e : String) : List String :=
  let c := cache ++ [e]
  if c.length > 10 then c.drop (c.length - 10) else c

/-- The store contents after appending a whole sequence of events in order. -/
def cacheOf (evs : List String) : List String :=
  List.foldl cacheAppend [] evs

/-- Recognize a `recent_codes` event. -/
def isRecentCodes : OutEvent → Bool
  | .recent_codes _ _ => true
  | _ => false

/-- The cache is exactly the suffix of the appended events that fits in the
capacity of ten. -/
theorem cacheOf_eq_drop (evs : List String) :
    cacheOf evs = evs.drop (evs.length - 10) := by
  induction evs using List.reverseRecOn with
  | nil => rfl
  | append_singleton l e ih =>
      have hstep : cacheOf (l ++ [e]) = cacheAppend (cacheOf l) e := by
        simp [cacheOf, List.foldl_append]
      rw [hstep, ih]
      by_cases h : l.length ≤ 9
      · have h0 : l.length - 10 = 0 := by omega
        have h1 : (l ++ [e]).length - 10 = 0 := by
          simp only [List.length_append, List.length_singleton]; omega
        have hc : ¬ (l ++ [e]).length > 10 := by
          simp only [List.length_append, List.length_singleton]; omega
        rw [h0, List.drop_zero, h1, List.drop_zero]
        simp only [cacheAppend]
        rw [if_neg hc]
      · have hlen : (l.drop (l.length - 10)).length = 10 := by
          simp; omega
        have hgt : (l.drop (l.length - 10) ++ [e]).length > 10 := by
          simp [hlen]
        simp only [cacheAppend, hgt, if_pos]
        rw [List.drop_append_eq_append_drop]
        rw [List.drop_append_eq_append_drop]
        rw [List.drop_drop]
        have e1 : (l.drop (l.length - 10) ++ [e]).length - 10 = 1 := by
          simp [hlen]
        have e2 : (l ++ [e]).length - 10 = l.length - 9 := by
          simp only [List.length_append, List.length_singleton]; omega
        rw [e1, e2]
        have e3 : l.length - 10 + 1 = l.length - 9 := by omega
        have e4 : (1 : Nat) - (l.drop (l.length - 10)).length = 0 := by
          rw [hlen]
        have e5 : l.length - 9 - l.length = 0 := by omega
        rw [e4, e5]
        simp [e3]

/-- C8 (amended): on a successful authenticate with the bus healthy, the
client receives the `recent_codes` replay exactly when the store is
non-empty; the replayed list is the most recent min(n, 10) events in
oldest-to-newest order and the count equals its length.  (The unamended
claim fails only on an empty store, where no event is emitted at all.) -/
theorem recent_codes_replay (sock : SocketState) (rl : RateMap) (now : Nat)
    (u : String) (hu : u.length ≥ 3)
    (hchk : (checkRateLimit rl now sock.handshakeUserId "message").1 = true)
    (evs : List String) (hne : evs ≠ []) :
    (handleAuthenticate sock rl true (cacheOf evs) now (some u)).events =
      [.authenticated u now,
       .recent_codes (cacheOf evs) (cacheOf evs).length] ∧
    (cacheOf evs).length ≤ 10 ∧
    (cacheOf evs).length = min evs.length 10 ∧
    List.IsSuffix (cacheOf evs) evs := by
  have hdrop := cacheOf_eq_drop evs
  have hlen : (cacheOf evs).length = min evs.length 10 := by
    rw [hdrop]; simp; omega
  have hpos : 0 < (cacheOf evs).length := by
    rw [hlen]
    have : 0 < evs.length := List.length_pos.2 hne
    omega
  have htake : (cacheOf evs).take 10 = cacheOf evs :=
    List.take_of_length_le (by omega)
  have hemit : sendRecentCodes (cacheOf evs) =
      [.recent_codes (cacheOf evs) (cacheOf evs).length] := by
    simp only [sendRecentCodes, htake]
    rw [if_pos hpos]
  refine ⟨?_, by omega, hlen, ?_⟩
  · simp [handleAuthenticate, hchk, hu, hemit]
  · rw [hdrop]; exact List.drop_suffix _ _

/-- Witness for C8's amended claim: twelve appended events leave the last
ten, replayed oldest first with count 10. -/
theorem recent_codes_replay_witness :
    (handleAuthenticate (mkSocket "s1" none) [] true
        (cacheOf ["e1", "e2", "e3", "e4", "e5", "e6",
                  "e7", "e8", "e9", "e10", "e11", "e12"]) 0
        (some "alice")).events =
      [.authenticated "alice" 0,
       .recent_codes
         (cacheOf ["e1", "e2", "e3", "e4", "e5", "e6",
                   "e7", "e8", "e9", "e10", "e11", "e12"])
         (cacheOf ["e1", "e2", "e3", "e4", "e5", "e6",
                   "e7", "e8", "e9", "e10", "e11", "e12"]).length] ∧
    (cacheOf ["e1", "e2", "e3", "e4", "e5", "e6",
              "e7", "e8", "e9", "e10", "e11", "e12"]).length ≤ 10 ∧
    (cacheOf ["e1", "e2", "e3", "e4", "e5", "e6",
              "e7", "e8", "e9", "e10", "e11", "e12"]).length =
      min (["e1", "e2", "e3", "e4", "e5", "e6",
            "e7", "e8", "e9", "e10", "e11", "e12"] : List String).length 10 ∧
    List.IsSuffix
      (cacheOf ["e1", "e2", "e3", "e4", "e5", "e6",
                "e7", "e8", "e9", "e10", "e11", "e12"])
      ["e1", "e2", "e3", "e4", "e5", "e6",
       "e7", "e8", "e9", "e10", "e11", "e12"] :=
  recent_codes_replay (mkSocket "s1" none) [] 0 "alice" (by decide)
    (by decide)
    ["e1", "e2", "e3", "e4", "e5", "e6", "e7", "e8", "e9", "e10", "e11", "e12"]
    (by decide)

/-- Counterexample for C8 as stated: with the bus healthy but the store
empty, a successful authenticate emits only `authenticated` — the client
receives no `recent_codes` event at all. -/
theorem recent_codes_missing_on_empty_store :
    (handleAuthenticate (mkSocket "s1" none) [] true (cacheOf []) 0
        (some "alice")).events = [.authenticated "alice" 0] ∧
    ((handleAuthenticate (mkSocket "s1" none) [] true (cacheOf []) 0
        (some "alice")).events.all (fun e => !(isRecentCodes e))) = true := by
  exact ⟨by decide, by decide⟩

/-- A connection admitted by the `io.on('connection')` handler, with the flag
recording whether its transport has since disconnected. -/
structure Conn where
  id : String
  disconnected : Bool
deriving DecidableEq

/-- Process-wide state for the connection lifecycle: the rate-limit map, the
`connectionStats` counters, and the admitted connections. -/
structure SystemState where
  rateLimits : RateMap
  stats : ConnectionStats
  conns : List Conn
deriving DecidableEq

/-- Transport notifications that drive the lifecycle. -/
inductive SysEvent where
  | connect (sockId ip : String) (t : Nat)
  | disconnect (sockId : String)
deriving DecidableEq

/-- `connectionStats` at process start (src/server.js lines 111-117). -/
def initialStats : ConnectionStats := ⟨0, 0, 0, 0, 0⟩

/-- The process state at startup: empty rate map, zeroed counters, no
connections. -/
def initialSystem : SystemState := ⟨[], initialStats, []⟩

/-- Whether some admitted connection carries this transport id. -/
def hasConn (conns : List Conn) (i : String) : Prop :=
  ∃ c ∈ conns, c.id = i

instance (conns : List Conn) (i : String) : Decidable (hasConn conns i) :=
  List.decidableBEx _ conns

/-- Whether some admitted, not-yet-disconnected connection carries this id. -/
def hasLiveConn (conns : List Conn) (i : String) : Prop :=
  ∃ c ∈ conns, c.id = i ∧ c.disconnected = false

instance (conns : List Conn) (i : String) : Decidable (hasLiveConn conns i) :=
  List.decidableBEx _ conns

/-- One transport notification (src/server.js lines 157-271).

On `connect`: the handler first runs the connection-category rate check on
the client address; on failure it emits an error and force-closes the socket
before any listener is registered, so the connection is never admitted and no
counter moves; on success `total_connections` and `active_connections` are
incremented and the connection is admitted.  On `disconnect`: the handler
registered on an admitted socket decrements `active_connections`.

Modelled from the spec for the transport collaborator (its dispatch is not
part of src/): transport-assigned ids are unique, so a `connect` for an id
already seen is not delivered, and the transport fires at most one disconnect
notification per connection — `Disconnected` is terminal, so a disconnect for
an unknown or already-disconnected id is not delivered to the handler. -/
def sysStep (s : SystemState) : SysEvent → SystemState
  | .connect i ip t =>
      if hasConn s.conns i then s
      else
        let chk := checkRateLimit s.rateLimits t ip "connection"
        if !chk.1 then { s with rateLimits := chk.2 }
        else
          { rateLimits := chk.2,
            stats := updateStats (updateStats s.stats "total_connections" 1)
              "active_connections" 1,
            conns := s.conns ++ [⟨i, false⟩] }
  | .disconnect i =>
      if hasLiveConn s.conns i then
        { s with
            stats := updateStats s.stats "active_connections" (-1),
            conns := s.conns.map
              (fun c => if c.id = i then { c with disconnected := true } else c) }
      else s

/-- Run a sequence of transport notifications from process start. -/
def runSys (evs : List SysEvent) : SystemState :=
  List.foldl sysStep initialSystem evs

/-- The number of admitted connections not yet disconnected. -/
def liveCount (conns : List Conn) : Nat :=
  (conns.filter (fun c => !c.disconnected)).length

/-- The lifecycle invariant: ids are unique and `active_connections` counts
the live connections. -/
def SysInv (s : SystemState) : Prop :=
  (s.conns.map Conn.id).Nodup ∧
  s.stats.active_connections = (liveCount s.conns : Int)

/-- A cons-step equation for the live count. -/
theorem liveCount_cons (c : Conn) (l : List Conn) :
    liveCount (c :: l) = (if c.disconnected then 0 else 1) + liveCount l := by
  cases hd : c.disconnected <;> simp [liveCount, List.filter_cons, hd] <;> omega

theorem map_flip_of_not_mem (i : String) (l : List Conn)
    (h : ∀ c ∈ l, c.id ≠ i) :
    l.map (fun c => if c.id = i then { c with disconnected := true } else c) = l := by
  induction l with
  | nil => rfl
  | cons c l ih =>
      have hc : ¬ c.id = i := h c (by simp)
      simp only [List.map_cons, if_neg hc]
      rw [ih (fun c' hc' => h c' (by simp [hc']))]

/-- Mapping the disconnect flip over a list does not change the id list. -/
theorem map_id_flip (i : String) (l : List Conn) :
    (l.map (fun c =>
      if c.id = i then { c with disconnected := true } else c)).map Conn.id =
      l.map Conn.id := by
  induction l with
  | nil => rfl
  | cons c l ih =>
      by_cases h : c.id = i <;> simp [h, ih]

/-- Flipping the unique live holder of an id lowers the live count by one. -/
theorem liveCount_flip (i : String) (l : List Conn)
    (hnd : (l.map Conn.id).Nodup)
    (hlive : hasLiveConn l i) :
    liveCount (l.map
      (fun c => if c.id = i then { c with disconnected := true } else c)) + 1 =
      liveCount l := by
  induction l with
  | nil => simp [hasLiveConn] at hlive
  | cons c l ih =>
      have hnd' : (l.map Conn.id).Nodup := (List.nodup_cons.1 hnd).2
      have hnotin : c.id ∉ l.map Conn.id := (List.nodup_cons.1 hnd).1
      by_cases hci : c.id = i
      · have htail : ∀ c' ∈ l, c'.id ≠ i := by
          intro c' hc' he
          apply hnotin
          rw [hci, ← he]
          exact List.mem_map_of_mem _ hc'
        have hcd : c.disconnected = false := by
          rcases hlive with ⟨c', hc', hid, hdis⟩
          rcases List.mem_cons.1 hc' with he | hmem
          · rw [← he]; exact hdis
          · exact absurd hid (htail c' hmem)
        have hmap := map_flip_of_not_mem i l htail
        have hflipc : (if c.id = i then { c with disconnected := true } else c) =
            { c with disconnected := true } := if_pos hci
        simp only [List.map_cons, hflipc, hmap]
        rw [liveCount_cons, liveCount_cons]
        simp [hcd]
        all_goals omega
      · have hlive' : hasLiveConn l i := by
          rcases hlive with ⟨c', hc', hid, hdis⟩
          rcases List.mem_cons.1 hc' with he | hmem
          · exfalso
            rw [he] at hid
            exact hci hid
          · exact ⟨c', hmem, hid, hdis⟩
        have hrec := ih hnd' hlive'
        simp only [List.map_cons, if_neg hci]
        rw [liveCount_cons, liveCount_cons]
        cases hd : c.disconnected <;> simp [hd]
        all_goals omega

/-- The invariant holds at startup and is preserved by every step. -/
theorem sysStep_preserves_inv (s : SystemState) (e : SysEvent)
    (h : SysInv s) : SysInv (sysStep s e) := by
  obtain ⟨hnd, hcount⟩ := h
  cases e with
  | connect i ip t =>
      by_cases hin : hasConn s.conns i
      · have hstep : sysStep s (.connect i ip t) = s := by
          simp [sysStep, hin]
        rw [hstep]
        exact ⟨hnd, hcount⟩
      · cases hchk : (checkRateLimit s.rateLimits t ip "connection").1 with
        | false =>
            have hstep : sysStep s (.connect i ip t) =
                { s with rateLimits :=
                    (checkRateLimit s.rateLimits t ip "connection").2 } := by
              simp [sysStep, hin, hchk]
            rw [hstep]
            exact ⟨hnd, hcount⟩
        | true =>
            have hstep : sysStep s (.connect i ip t) =
                { rateLimits := (checkRateLimit s.rateLimits t ip "connection").2,
                  stats := updateStats (updateStats s.stats "total_connections" 1)
                    "active_connections" 1,
                  conns := s.conns ++ [⟨i, false⟩] } := by
              simp [sysStep, hin, hchk]
            have hfresh : ∀ c ∈ s.conns, ¬ c.id = i := by
              intro c hc he
              exact hin ⟨c, hc, he⟩
            rw [hstep]
            constructor
            · simp only [List.map_append]
              rw [List.nodup_append]
              refine ⟨hnd, by simp, ?_⟩
              intro a ha hb
              simp at hb
              rcases List.mem_map.1 ha with ⟨c, hc, rfl⟩
              exact hfresh c hc hb
            · have hl : liveCount (s.conns ++ [⟨i, false⟩]) =
                  liveCount s.conns + 1 := by
                simp [liveCount]
              have hst : (updateStats (updateStats s.stats "total_connections" 1)
                  "active_connections" 1).active_connections =
                  s.stats.active_connections + 1 := by
                simp [updateStats]
              simp only [hst, hl, hcount]
              push_cast
              ring
  | disconnect i =>
      by_cases hlive : hasLiveConn s.conns i
      · have hstep : sysStep s (.disconnect i) =
            { s with
                stats := updateStats s.stats "active_connections" (-1),
                conns := s.conns.map (fun c =>
                  if c.id = i then { c with disconnected := true } else c) } := by
          simp [sysStep, hlive]
        rw [hstep]
        constructor
        · show ((s.conns.map (fun c =>
              if c.id = i then { c with disconnected := true } else c)).map
              Conn.id).Nodup
          rw [map_id_flip]
          exact hnd
        · have hflip := liveCount_flip i s.conns hnd hlive
          have hst : (updateStats s.stats "active_connections"
              (-1)).active_connections = s.stats.active_connections + (-1) := by
            simp [updateStats]
          simp only [hst, hcount]
          omega
      · have hstep : sysStep s (.disconnect i) = s := by
          simp [sysStep, hlive]
        rw [hstep]
        exact ⟨hnd, hcount⟩

theorem runSys_inv (evs : List SysEvent) : SysInv (runSys evs) := by
  suffices h : ∀ (l : List SysEvent) (s : SystemState), SysInv s →
      SysInv (List.foldl sysStep s l) by
    exact h evs initialSystem
      ⟨by simp [initialSystem], by simp [initialSystem, initialStats, liveCount]⟩
  intro l
  induction l with
  | nil => intro s hs; exact hs
  | cons e l ih => intro s hs; exact ih _ (sysStep_preserves_inv s e hs)

/-- After a disconnect is processed, no live connection with that id is
left, so the disconnect dispatch is idempotent. -/
theorem hasLiveConn_after_flip (i : String) (l : List Conn) :
    ¬ hasLiveConn (l.map
      (fun c => if c.id = i then { c with disconnected := true } else c)) i := by
  rintro ⟨c', hc', hid, hdis⟩
  rcases List.mem_map.1 hc' with ⟨c, hc, hflip⟩
  by_cases hci : c.id = i
  · rw [if_pos hci] at hflip
    rw [← hflip] at hdis
    simp at hdis
  · rw [if_neg hci] at hflip
    rw [← hflip] at hid
    exact hci hid

/-- C9: the `active_connections` counter.  After any sequence of transport
notifications it equals the number of admitted, not-yet-disconnected
connections; a second disconnect for the same connection changes nothing; a
connection rejected by the connection-category rate limit moves no counters
and is never admitted; and each admission increments the counter by exactly
one. -/
theorem active_connections_correct :
    (∀ evs : List SysEvent,
       (runSys evs).stats.active_connections =
         (liveCount (runSys evs).conns : Int)) ∧
    (∀ (s : SystemState) (i : String),
       sysStep (sysStep s (.disconnect i)) (.disconnect i) =
         sysStep s (.disconnect i)) ∧
    (∀ (s : SystemState) (i ip : String) (t : Nat),
       (checkRateLimit s.rateLimits t ip "connection").1 = false →
       (sysStep s (.connect i ip t)).stats = s.stats ∧
       (sysStep s (.connect i ip t)).conns = s.conns) ∧
    (∀ (s : SystemState) (i ip : String) (t : Nat),
       ¬ hasConn s.conns i →
       (checkRateLimit s.rateLimits t ip "connection").1 = true →
       (sysStep s (.connect i ip t)).stats.active_connections =
         s.stats.active_connections + 1) := by
  refine ⟨fun evs => (runSys_inv evs).2, ?_, ?_, ?_⟩
  · intro s i
    by_cases hlive : hasLiveConn s.conns i
    · have hgone := hasLiveConn_after_flip i s.conns
      simp [sysStep, hlive, hgone]
    · simp [sysStep, hlive]
  · intro s i ip t hchk
    by_cases hin : hasConn s.conns i
    · simp [sysStep, hin]
    · simp [sysStep, hin, hchk]
  · intro s i ip t hin hchk
    simp [sysStep, hin, hchk, updateStats]

/-- Witness for C9 at concrete inputs: a run with one admitted connection
and its disconnect, a double disconnect, and a rejected connect against a
saturated address window. -/
theorem active_connections_correct_witness :
    (runSys [.connect "s1" "ip1" 0, .connect "s2" "ip1" 1,
             .disconnect "s1"]).stats.active_connections =
      (liveCount (runSys [.connect "s1" "ip1" 0, .connect "s2" "ip1" 1,
             .disconnect "s1"]).conns : Int) ∧
    sysStep (sysStep initialSystem (.disconnect "s1")) (.disconnect "s1") =
      sysStep initialSystem (.disconnect "s1") ∧
    (sysStep ⟨[("ip1_connection", ⟨5, 100⟩)], initialStats, []⟩
        (.connect "s1" "ip1" 50)).stats =
      (⟨[("ip1_connection", ⟨5, 100⟩)], initialStats, []⟩ : SystemState).stats ∧
    (sysStep initialSystem (.connect "s1" "ip1" 0)).stats.active_connections =
      initialSystem.stats.active_connections + 1 :=
  ⟨active_connections_correct.1
     [.connect "s1" "ip1" 0, .connect "s2" "ip1" 1, .disconnect "s1"],
   active_connections_correct.2.1 initialSystem "s1",
   (active_connections_correct.2.2.1 ⟨[("ip1_connection", ⟨5, 100⟩)],
      initialStats, []⟩ "s1" "ip1" 50 (by decide)).1,
   active_connections_correct.2.2.2 initialSystem "s1" "ip1" 0
     (by decide) (by decide)⟩

end SocketServer
